import Mathlib

/-!
Shallow embedding of the MIPS-like assembly interpreter of the npad
repository (program loader `parseMipsProgram`, machine initialisation
`initializeMipsMachine`, the single-step executor `stepMipsMachine` and the
driver `runMipsMachineToEnd`).

JavaScript-specific behaviour is modelled explicitly:
* numbers flowing through `| 0` are 32-bit two's-complement truncated
  (`toInt32` below);
* `Record<string, number>` objects keyed by register names are modelled by a
  structure with exactly the 32 register fields (the source object is created
  with exactly these keys and only ever written through `writeMipsRegister`,
  which filters on the fixed register-name set);
* `Record<string, number>` memory objects keyed by `String(address)` are
  modelled by association lists keyed by the (sanitised, hence 32-bit) integer
  address itself - `String` is injective on integers, and numeric-string keys
  are never JavaScript prototype properties;
* the regular expressions used for instruction decoding are modelled by
  hand-written deterministic parsers over `List Char` that reproduce the
  greedy/backtracking behaviour of each concrete pattern;
* `Number.parseInt` is modelled as exact integer parsing.  The JavaScript
  original rounds to the nearest double first, which differs only for literals
  of more than 15 decimal (13 hexadecimal) digits; no behaviour considered
  here depends on such literals.
-/

/-- JavaScript `\s` character class (and the characters trimmed by
`String.prototype.trim`), restricted to the code points that can actually
appear in this code base: space, tab, line feed, carriage return, vertical
tab, form feed, no-break space and the BOM. -/
def isJsSpace (c : Char) : Bool :=
  c = ' ' || c = '\t' || c = '\n' || c = '\r' || c = '\x0b' || c = '\x0c' ||
    c = ' ' || c = '﻿'

/-- JavaScript `\w` character class: `[A-Za-z0-9_]`. -/
def isWordChar (c : Char) : Bool :=
  ('a' ≤ c && c ≤ 'z') || ('A' ≤ c && c ≤ 'Z') || ('0' ≤ c && c ≤ '9') || c = '_'

/-- Character class `[A-Za-z_.$]` (first character of a label). -/
def isLabelStart (c : Char) : Bool :=
  ('a' ≤ c && c ≤ 'z') || ('A' ≤ c && c ≤ 'Z') || c = '_' || c = '.' || c = '$'

/-- Character class `[\w.$]` (subsequent characters of a label). -/
def isLabelChar (c : Char) : Bool :=
  isWordChar c || c = '.' || c = '$'

/-- The JavaScript `.` regex class: any character except a line terminator. -/
def isDotChar (c : Char) : Bool :=
  !(c = '\n' || c = '\r' || c = ' ' || c = ' ')

/-- Case-insensitive match of a single (ASCII) letter, as under the `/i`
regex flag. -/
def charCI (pat c : Char) : Bool :=
  c = pat || c.toLower = pat

/-- `String.prototype.trim`: drop whitespace from both ends. -/
def trimJsChars (l : List Char) : List Char :=
  ((l.dropWhile isJsSpace).reverse.dropWhile isJsSpace).reverse

/-- `trim` on strings. -/
def trimJs (s : String) : String :=
  String.mk (trimJsChars s.data)

/-- JavaScript `| 0` (ToInt32): two's-complement truncation to 32 bits. -/
def toInt32 (n : Int) : Int :=
  (n + 2147483648) % 4294967296 - 2147483648

theorem toInt32_lower (n : Int) : -2147483648 ≤ toInt32 n := by
  have h := Int.emod_nonneg (n + 2147483648) (by norm_num : (4294967296 : Int) ≠ 0)
  unfold toInt32
  omega

theorem toInt32_upper (n : Int) : toInt32 n < 2147483648 := by
  have h := Int.emod_lt_of_pos (n + 2147483648) (by norm_num : (0 : Int) < 4294967296)
  unfold toInt32
  omega

theorem toInt32_of_range (n : Int) (h1 : -2147483648 ≤ n) (h2 : n < 2147483648) :
    toInt32 n = n := by
  unfold toInt32
  have : (n + 2147483648) % 4294967296 = n + 2147483648 := Int.emod_eq_of_lt (by omega) (by omega)
  omega

theorem toInt32_idem (n : Int) : toInt32 (toInt32 n) = toInt32 n :=
  toInt32_of_range _ (toInt32_lower n) (toInt32_upper n)

/-- Association-list read, mirroring JavaScript `map.get(k)` /
`obj[k]` lookup on own properties. -/
def jsGet {α β : Type} [DecidableEq α] : List (α × β) → α → Option β
  | [], _ => none
  | (k, v) :: t, a => if k = a then some v else jsGet t a

/-- Association-list write, mirroring JavaScript `map.set(k, v)` /
`obj[k] = v`: update in place if present, else append. -/
def jsSet {α β : Type} [DecidableEq α] : List (α × β) → α → β → List (α × β)
  | [], a, b => [(a, b)]
  | (k, v) :: t, a, b => if k = a then (k, b) :: t else (k, v) :: jsSet t a b

theorem jsGet_jsSet_self {α β : Type} [DecidableEq α] (l : List (α × β)) (a : α) (b : β) :
    jsGet (jsSet l a b) a = some b := by
  induction l with
  | nil => simp [jsGet, jsSet]
  | cons kv t ih =>
    obtain ⟨k, v⟩ := kv
    by_cases h : k = a
    · simp [jsGet, jsSet, h]
    · simp [jsGet, jsSet, h, ih]

theorem jsGet_jsSet_ne {α β : Type} [DecidableEq α] (l : List (α × β)) (a a' : α) (b : β)
    (h : a ≠ a') : jsGet (jsSet l a b) a' = jsGet l a' := by
  induction l with
  | nil => simp [jsGet, jsSet, h]
  | cons kv t ih =>
    obtain ⟨k, v⟩ := kv
    by_cases hk : k = a
    · subst hk
      simp [jsGet, jsSet, h]
    · simp only [jsSet, if_neg hk, jsGet]
      by_cases hk' : k = a'
      · simp [hk']
      · simp [hk', ih]

/-- Add an element to an ordered set kept as a list (the
`if (!xs.includes(x)) xs.push(x)` idiom of the source). -/
def pushUnique {α : Type} [DecidableEq α] (l : List α) (x : α) : List α :=
  if x ∈ l then l else l ++ [x]

/-- Value of the longest decimal-digit prefix (`Number.parseInt` radix-10
digit scanning: stop at the first non-digit, ignore the rest). -/
def decDigitsValue : List Char → Nat → Nat
  | [], acc => acc
  | c :: t, acc =>
    if c.isDigit then decDigitsValue t (acc * 10 + (c.toNat - '0'.toNat)) else acc

/-- `Number.parseInt(s, 10)` on an already-trimmed string: optional sign,
then at least one decimal digit; further characters are ignored.  Returns
`none` where the original returns `NaN`. -/
def parseInt10 : List Char → Option Int
  | '-' :: t =>
    match t with
    | c :: _ => if c.isDigit then some (-(decDigitsValue t 0 : Int)) else none
    | [] => none
  | '+' :: t =>
    match t with
    | c :: _ => if c.isDigit then some ((decDigitsValue t 0 : Int)) else none
    | [] => none
  | c :: t =>
    if c.isDigit then some ((decDigitsValue (c :: t) 0 : Int)) else none
  | [] => none

/-- Hexadecimal digit class `[0-9a-fA-F]`. -/
def isHexChar (c : Char) : Bool :=
  c.isDigit || ('a' ≤ c && c ≤ 'f') || ('A' ≤ c && c ≤ 'F')

/-- Numeric value of one hexadecimal digit. -/
def hexCharValue (c : Char) : Nat :=
  if c.isDigit then c.toNat - '0'.toNat
  else if 'a' ≤ c && c ≤ 'f' then c.toNat - 'a'.toNat + 10
  else c.toNat - 'A'.toNat + 10

/-- Value of a run of hexadecimal digits. -/
def hexDigitsValue : List Char → Nat → Nat
  | [], acc => acc
  | c :: t, acc => hexDigitsValue t (acc * 16 + hexCharValue c)

/-- The test `/^-?0x[0-9a-fA-F]+$/.test(value)` (case-sensitive `0x`). -/
def hexLiteralTest (l : List Char) : Bool :=
  match l with
  | '-' :: '0' :: 'x' :: ds => !ds.isEmpty && ds.all isHexChar
  | '0' :: 'x' :: ds => !ds.isEmpty && ds.all isHexChar
  | _ => false

/-- `Number.parseInt(s, 16)` on a string known to match the hex-literal
test: optional minus sign, the `0x` prefix, then hex digits. -/
def parseHexSigned : List Char → Option Int
  | '-' :: '0' :: 'x' :: ds =>
    if !ds.isEmpty && ds.all isHexChar then some (-(hexDigitsValue ds 0 : Int)) else none
  | '0' :: 'x' :: ds =>
    if !ds.isEmpty && ds.all isHexChar then some ((hexDigitsValue ds 0 : Int)) else none
  | _ => none

/-- `parseMipsNumber`: trim, reject the empty string, parse as hex when the
hex-literal test matches and as decimal otherwise, and truncate the result
with `| 0`. -/
def parseMipsNumber (raw : String) : Option Int :=
  let value := trimJsChars raw.data
  if value.isEmpty then none
  else
    match (if hexLiteralTest value then parseHexSigned value else parseInt10 value) with
    | none => none
    | some parsed => some (toInt32 parsed)

/-- `sanitizeMipsMemoryAddress`: `address | 0`. -/
def sanitizeMipsMemoryAddress (address : Int) : Int :=
  toInt32 address

/-- The 32 MIPS register names, in the order of `MIPS_REGISTERS`. -/
def MIPS_REGISTERS : List String :=
  ["$zero", "$at",
   "$v0", "$v1",
   "$a0", "$a1", "$a2", "$a3",
   "$t0", "$t1", "$t2", "$t3", "$t4", "$t5", "$t6", "$t7", "$t8", "$t9",
   "$s0", "$s1", "$s2", "$s3", "$s4", "$s5", "$s6", "$s7",
   "$k0", "$k1",
   "$gp", "$sp", "$fp", "$ra"]

/-- `MIPS_REGISTER_SET.has name`. -/
def mipsRegisterSetHas (name : String) : Bool :=
  MIPS_REGISTERS.contains name

/-- The register-file object: a `Record` created with exactly the 32 register
names as keys (field `at'` stands for `$at`). -/
structure MipsRegisterFile where
  zero : Int
  at' : Int
  v0 : Int
  v1 : Int
  a0 : Int
  a1 : Int
  a2 : Int
  a3 : Int
  t0 : Int
  t1 : Int
  t2 : Int
  t3 : Int
  t4 : Int
  t5 : Int
  t6 : Int
  t7 : Int
  t8 : Int
  t9 : Int
  s0 : Int
  s1 : Int
  s2 : Int
  s3 : Int
  s4 : Int
  s5 : Int
  s6 : Int
  s7 : Int
  k0 : Int
  k1 : Int
  gp : Int
  sp : Int
  fp : Int
  ra : Int
  deriving DecidableEq

/-- The all-zero register file produced by
`Object.fromEntries(MIPS_REGISTERS.map((reg) => [reg, 0]))`. -/
def mipsZeroRegisters : MipsRegisterFile :=
  ⟨0, 0, 0, 0, 0, 0, 0, 0, 0, 0, 0, 0, 0, 0, 0, 0,
   0, 0, 0, 0, 0, 0, 0, 0, 0, 0, 0, 0, 0, 0, 0, 0⟩

/-- Read `registers[name] ?? 0`: the object has exactly the 32 register
keys, every other (always `$`-prefixed, hence non-prototype) name yields 0. -/
def regGet (r : MipsRegisterFile) : String → Int
  | "$zero" => r.zero
  | "$at" => r.at'
  | "$v0" => r.v0
  | "$v1" => r.v1
  | "$a0" => r.a0
  | "$a1" => r.a1
  | "$a2" => r.a2
  | "$a3" => r.a3
  | "$t0" => r.t0
  | "$t1" => r.t1
  | "$t2" => r.t2
  | "$t3" => r.t3
  | "$t4" => r.t4
  | "$t5" => r.t5
  | "$t6" => r.t6
  | "$t7" => r.t7
  | "$t8" => r.t8
  | "$t9" => r.t9
  | "$s0" => r.s0
  | "$s1" => r.s1
  | "$s2" => r.s2
  | "$s3" => r.s3
  | "$s4" => r.s4
  | "$s5" => r.s5
  | "$s6" => r.s6
  | "$s7" => r.s7
  | "$k0" => r.k0
  | "$k1" => r.k1
  | "$gp" => r.gp
  | "$sp" => r.sp
  | "$fp" => r.fp
  | "$ra" => r.ra
  | _ => 0

/-- Raw field assignment `registers[name] = v` for a name among the 32
register keys (writes to any other name never happen in the source: both
`writeMipsRegister` and machine initialisation filter on the register set). -/
def regSet (r : MipsRegisterFile) : String → Int → MipsRegisterFile
  | "$zero", v => { r with zero := v }
  | "$at", v => { r with at' := v }
  | "$v0", v => { r with v0 := v }
  | "$v1", v => { r with v1 := v }
  | "$a0", v => { r with a0 := v }
  | "$a1", v => { r with a1 := v }
  | "$a2", v => { r with a2 := v }
  | "$a3", v => { r with a3 := v }
  | "$t0", v => { r with t0 := v }
  | "$t1", v => { r with t1 := v }
  | "$t2", v => { r with t2 := v }
  | "$t3", v => { r with t3 := v }
  | "$t4", v => { r with t4 := v }
  | "$t5", v => { r with t5 := v }
  | "$t6", v => { r with t6 := v }
  | "$t7", v => { r with t7 := v }
  | "$t8", v => { r with t8 := v }
  | "$t9", v => { r with t9 := v }
  | "$s0", v => { r with s0 := v }
  | "$s1", v => { r with s1 := v }
  | "$s2", v => { r with s2 := v }
  | "$s3", v => { r with s3 := v }
  | "$s4", v => { r with s4 := v }
  | "$s5", v => { r with s5 := v }
  | "$s6", v => { r with s6 := v }
  | "$s7", v => { r with s7 := v }
  | "$k0", v => { r with k0 := v }
  | "$k1", v => { r with k1 := v }
  | "$gp", v => { r with gp := v }
  | "$sp", v => { r with sp := v }
  | "$fp", v => { r with fp := v }
  | "$ra", v => { r with ra := v }
  | _, _ => r

/-- The trailing `machine.registers.$zero = 0` of every executed
instruction. -/
def zeroRestored (r : MipsRegisterFile) : MipsRegisterFile :=
  { r with zero := 0 }

/-- `MipsMachineStatus`. -/
inductive MipsMachineStatus where
  | ready
  | halted
  | error
  deriving DecidableEq

/-- `MipsProgram`: instruction lines, label table, data segment. -/
structure MipsProgram where
  instructions : List String
  labels : List (String × Nat)
  dataByAddress : List (Int × String)
  dataAddresses : List (String × Int)
  deriving DecidableEq

/-- `MipsMachineState`.  `memory` is keyed by the sanitised integer address
(the source keys the record by its decimal string image, injectively);
`touchedMemory` holds the same keys. -/
structure MipsMachineState where
  source : String
  program : MipsProgram
  registers : MipsRegisterFile
  memory : List (Int × Int)
  output : String
  status : MipsMachineStatus
  error : String
  pc : Int
  steps : Nat
  touchedRegisters : List String
  touchedMemory : List Int
  deriving DecidableEq

/-- `MIPS_MAX_STEPS`. -/
def MIPS_MAX_STEPS : Nat := 10000

/-- `MIPS_DATA_BASE`. -/
def MIPS_DATA_BASE : Int := 0x10010000

/-- `readMipsRegister(machine, name)`. -/
def readMipsRegister (machine : MipsMachineState) (name : String) : Int :=
  regGet machine.registers name

/-- `writeMipsRegister(machine, name, value)`: discard writes to names
outside the register set and to `$zero`; otherwise store `value | 0` and
record the register as touched. -/
def writeMipsRegister (machine : MipsMachineState) (name : String) (value : Int) :
    MipsMachineState :=
  if mipsRegisterSetHas name && !(name == "$zero") then
    { machine with
        registers := regSet machine.registers name (toInt32 value)
        touchedRegisters := pushUnique machine.touchedRegisters name }
  else machine

/-- `\s+` followed by a pattern that cannot start with whitespace: require
one whitespace character, then skip the maximal run. -/
def reqWs : List Char → Option (List Char)
  | c :: t => if isJsSpace c then some (t.dropWhile isJsSpace) else none
  | [] => none

/-- `(\$\w+)`: a literal `$` followed by at least one word character,
captured greedily. -/
def regToken : List Char → Option (String × List Char)
  | '$' :: t =>
    let w := t.takeWhile isWordChar
    if w.isEmpty then none else some (String.mk ('$' :: w), t.dropWhile isWordChar)
  | _ => none

/-- `\s*,`: skip whitespace, require a comma, return the rest untouched. -/
def afterComma (l : List Char) : Option (List Char) :=
  match l.dropWhile isJsSpace with
  | ',' :: t => some t
  | _ => none

/-- Operand character class `[^,\s]`. -/
def isOperandChar (c : Char) : Bool :=
  !(c == ',') && !isJsSpace c

/-- `([^,\s]+)$`: the whole remainder, required non-empty and free of commas
and whitespace. -/
def capNoCommaWs (l : List Char) : Option String :=
  if !l.isEmpty && l.all isOperandChar then some (String.mk l) else none

/-- `\s*(.+)$` with backtracking: the greedy whitespace run gives characters
back one at a time until `.+` can reach the end of the string. -/
def capDotRest (r : List Char) : Option String :=
  let t := r.dropWhile isJsSpace
  if t.isEmpty then
    match r.getLast? with
    | some c => if isDotChar c then some (String.mk [c]) else none
    | none => none
  else if t.all isDotChar then some (String.mk t) else none

/-- `([A-Za-z_.$][\w.$]*)$`: a label filling the whole remainder. -/
def capLabelEnd : List Char → Option String
  | c :: t => if isLabelStart c && t.all isLabelChar then some (String.mk (c :: t)) else none
  | [] => none

/-- `/^li\s+(\$\w+)\s*,\s*([^,\s]+)$/i`. -/
def decodeLi : List Char → Option (String × String)
  | c1 :: c2 :: rest =>
    if charCI 'l' c1 && charCI 'i' c2 then
      (reqWs rest).bind fun r1 =>
      (regToken r1).bind fun p =>
      (afterComma p.2).bind fun r2 =>
      (capNoCommaWs (r2.dropWhile isJsSpace)).map fun imm => (p.1, imm)
    else none
  | _ => none

/-- `/^la\s+(\$\w+)\s*,\s*([A-Za-z_.$][\w.$]*)$/i`. -/
def decodeLa : List Char → Option (String × String)
  | c1 :: c2 :: rest =>
    if charCI 'l' c1 && charCI 'a' c2 then
      (reqWs rest).bind fun r1 =>
      (regToken r1).bind fun p =>
      (afterComma p.2).bind fun r2 =>
      (capLabelEnd (r2.dropWhile isJsSpace)).map fun label => (p.1, label)
    else none
  | _ => none

/-- `/^move\s+(\$\w+)\s*,\s*(\$\w+)$/i`. -/
def decodeMove : List Char → Option (String × String)
  | c1 :: c2 :: c3 :: c4 :: rest =>
    if charCI 'm' c1 && charCI 'o' c2 && charCI 'v' c3 && charCI 'e' c4 then
      (reqWs rest).bind fun r1 =>
      (regToken r1).bind fun p =>
      (afterComma p.2).bind fun r2 =>
      (regToken (r2.dropWhile isJsSpace)).bind fun q =>
      if q.2.isEmpty then some (p.1, q.1) else none
    else none
  | _ => none

/-- `/^addi\s+(\$\w+)\s*,\s*(\$\w+)\s*,\s*([^,\s]+)$/i`. -/
def decodeAddi : List Char → Option (String × String × String)
  | c1 :: c2 :: c3 :: c4 :: rest =>
    if charCI 'a' c1 && charCI 'd' c2 && charCI 'd' c3 && charCI 'i' c4 then
      (reqWs rest).bind fun r1 =>
      (regToken r1).bind fun p =>
      (afterComma p.2).bind fun r2 =>
      (regToken (r2.dropWhile isJsSpace)).bind fun q =>
      (afterComma q.2).bind fun r3 =>
      (capNoCommaWs (r3.dropWhile isJsSpace)).map fun imm => (p.1, q.1, imm)
    else none
  | _ => none

/-- `/^(add|sub)\s+(\$\w+)\s*,\s*(\$\w+)\s*,\s*(\$\w+)$/i`; the boolean is
`mnemonic.toLowerCase() === 'add'`. -/
def decodeArith (l : List Char) : Option (Bool × String × String × String) :=
  match l with
  | c1 :: c2 :: c3 :: rest =>
    let cont : Bool → Option (Bool × String × String × String) := fun isAdd =>
      (reqWs rest).bind fun r1 =>
      (regToken r1).bind fun p =>
      (afterComma p.2).bind fun r2 =>
      (regToken (r2.dropWhile isJsSpace)).bind fun q =>
      (afterComma q.2).bind fun r3 =>
      (regToken (r3.dropWhile isJsSpace)).bind fun s =>
      if s.2.isEmpty then some (isAdd, p.1, q.1, s.1) else none
    if charCI 'a' c1 && charCI 'd' c2 && charCI 'd' c3 then cont true
    else if charCI 's' c1 && charCI 'u' c2 && charCI 'b' c3 then cont false
    else none
  | _ => none

/-- `/^lw\s+(\$\w+)\s*,\s*(.+)$/i`. -/
def decodeLw : List Char → Option (String × String)
  | c1 :: c2 :: rest =>
    if charCI 'l' c1 && charCI 'w' c2 then
      (reqWs rest).bind fun r1 =>
      (regToken r1).bind fun p =>
      (afterComma p.2).bind fun r2 =>
      (capDotRest r2).map fun cap => (p.1, cap)
    else none
  | _ => none

/-- `/^sw\s+(\$\w+)\s*,\s*(.+)$/i`. -/
def decodeSw : List Char → Option (String × String)
  | c1 :: c2 :: rest =>
    if charCI 's' c1 && charCI 'w' c2 then
      (reqWs rest).bind fun r1 =>
      (regToken r1).bind fun p =>
      (afterComma p.2).bind fun r2 =>
      (capDotRest r2).map fun cap => (p.1, cap)
    else none
  | _ => none

/-- `/^(beq|bne)\s+(\$\w+)\s*,\s*(\$\w+)\s*,\s*([A-Za-z_.$][\w.$]*)$/i`;
the boolean is `mnemonic.toLowerCase() === 'beq'`. -/
def decodeBranch (l : List Char) : Option (Bool × String × String × String) :=
  match l with
  | c1 :: c2 :: c3 :: rest =>
    let cont : Bool → Option (Bool × String × String × String) := fun isBeq =>
      (reqWs rest).bind fun r1 =>
      (regToken r1).bind fun p =>
      (afterComma p.2).bind fun r2 =>
      (regToken (r2.dropWhile isJsSpace)).bind fun q =>
      (afterComma q.2).bind fun r3 =>
      (capLabelEnd (r3.dropWhile isJsSpace)).map fun label => (isBeq, p.1, q.1, label)
    if charCI 'b' c1 && charCI 'e' c2 && charCI 'q' c3 then cont true
    else if charCI 'b' c1 && charCI 'n' c2 && charCI 'e' c3 then cont false
    else none
  | _ => none

/-- `/^j\s+([A-Za-z_.$][\w.$]*)$/i`. -/
def decodeJump : List Char → Option String
  | c :: rest =>
    if charCI 'j' c then (reqWs rest).bind capLabelEnd else none
  | [] => none

/-- `/^syscall$/i.test(inst)`. -/
def isSyscallInst : List Char → Bool
  | [c1, c2, c3, c4, c5, c6, c7] =>
    charCI 's' c1 && charCI 'y' c2 && charCI 's' c3 && charCI 'c' c4 &&
      charCI 'a' c5 && charCI 'l' c6 && charCI 'l' c7
  | _ => false

/-- `/^(.+)\((\$\w+)\)$/`: recognised from the right end; backtracking makes
the greedy `.+` stop at the last `(`, which is the only candidate because
`\$\w+\)` cannot contain a parenthesis. -/
def matchOffsetBase (l : List Char) : Option (String × String) :=
  match l.reverse with
  | ')' :: t =>
    let w := t.takeWhile isWordChar
    match t.dropWhile isWordChar with
    | '$' :: '(' :: restRev =>
      if w.isEmpty || restRev.isEmpty || !(restRev.all isDotChar) then none
      else some (String.mk restRev.reverse, String.mk ('$' :: w.reverse))
    | _ => none
  | _ => none

/-- `parseMipsAddressOperand(machine, operand)`. -/
def parseMipsAddressOperand (machine : MipsMachineState) (operand : String) : Option Int :=
  match matchOffsetBase operand.data with
  | some (offRaw, base) =>
    match parseMipsNumber (trimJs offRaw) with
    | none => none
    | some offset =>
      if mipsRegisterSetHas base then
        some (sanitizeMipsMemoryAddress (readMipsRegister machine base + offset))
      else none
  | none =>
    match jsGet machine.program.dataAddresses operand with
    | some address => some address
    | none =>
      match parseMipsNumber operand with
      | none => none
      | some direct => some (sanitizeMipsMemoryAddress direct)

/-- The failure path of `stepMipsMachine`: freeze the derived state with an
error message (the step counter was already incremented). -/
def mipsFail (machine : MipsMachineState) (message : String) : MipsMachineState :=
  { machine with status := MipsMachineStatus.error, error := message }

/-- `machine.pc += 1; machine.registers.$zero = 0`. -/
def mipsAdvance (m : MipsMachineState) : MipsMachineState :=
  { m with pc := m.pc + 1, registers := zeroRestored m.registers }

/-- `machine.pc = target; machine.registers.$zero = 0`. -/
def mipsJumpTo (m : MipsMachineState) (target : Nat) : MipsMachineState :=
  { m with pc := (target : Int), registers := zeroRestored m.registers }

/-- The instruction-dispatch part of `stepMipsMachine`: the ordered pattern
chain applied to the instruction at the program counter, acting on the
derived state whose step counter is already incremented. -/
def execMipsInstruction (machine : MipsMachineState) (inst : String) : MipsMachineState :=
  match decodeLi inst.data with
  | some (rd, raw) =>
    match parseMipsNumber raw with
    | none => mipsFail machine ("Invalid immediate value: " ++ raw)
    | some value => mipsAdvance (writeMipsRegister machine rd value)
  | none =>
  match decodeLa inst.data with
  | some (rd, label) =>
    match jsGet machine.program.dataAddresses label with
    | none => mipsFail machine ("Unknown data label: " ++ label)
    | some address => mipsAdvance (writeMipsRegister machine rd address)
  | none =>
  match decodeMove inst.data with
  | some (rd, rs) => mipsAdvance (writeMipsRegister machine rd (readMipsRegister machine rs))
  | none =>
  match decodeAddi inst.data with
  | some (rd, rs, raw) =>
    match parseMipsNumber raw with
    | none => mipsFail machine ("Invalid immediate value: " ++ raw)
    | some immediate =>
      mipsAdvance (writeMipsRegister machine rd
        (toInt32 (readMipsRegister machine rs + immediate)))
  | none =>
  match decodeArith inst.data with
  | some (isAdd, rd, rs, rt) =>
    mipsAdvance (writeMipsRegister machine rd
      (toInt32 (if isAdd then readMipsRegister machine rs + readMipsRegister machine rt
                else readMipsRegister machine rs - readMipsRegister machine rt)))
  | none =>
  match decodeLw inst.data with
  | some (rd, cap) =>
    match parseMipsAddressOperand machine (trimJs cap) with
    | none => mipsFail machine ("Invalid memory operand: " ++ cap)
    | some address =>
      let m1 := writeMipsRegister machine rd ((jsGet machine.memory address).getD 0)
      mipsAdvance { m1 with touchedMemory := pushUnique m1.touchedMemory address }
  | none =>
  match decodeSw inst.data with
  | some (rs, cap) =>
    match parseMipsAddressOperand machine (trimJs cap) with
    | none => mipsFail machine ("Invalid memory operand: " ++ cap)
    | some address =>
      let m1 := { machine with
        memory := jsSet machine.memory address (toInt32 (readMipsRegister machine rs)) }
      mipsAdvance { m1 with touchedMemory := pushUnique m1.touchedMemory address }
  | none =>
  match decodeBranch inst.data with
  | some (isBeq, r1, r2, label) =>
    let lhs := readMipsRegister machine r1
    let rhs := readMipsRegister machine r2
    if (if isBeq then lhs = rhs else lhs ≠ rhs) then
      match jsGet machine.program.labels label with
      | none => mipsFail machine ("Unknown label: " ++ label)
      | some target => mipsJumpTo machine target
    else mipsAdvance machine
  | none =>
  match decodeJump inst.data with
  | some label =>
    match jsGet machine.program.labels label with
    | none => mipsFail machine ("Unknown label: " ++ label)
    | some target => mipsJumpTo machine target
  | none =>
  if isSyscallInst inst.data then
    let v0 := readMipsRegister machine "$v0"
    if v0 = 1 then
      mipsAdvance { machine with
        output := machine.output ++ toString (readMipsRegister machine "$a0") }
    else if v0 = 4 then
      mipsAdvance { machine with
        output := machine.output ++
          ((jsGet machine.program.dataByAddress (readMipsRegister machine "$a0")).getD "") }
    else if v0 = 10 then
      { machine with status := MipsMachineStatus.halted,
                     registers := zeroRestored machine.registers }
    else if v0 = 11 then
      mipsAdvance { machine with
        output := machine.output ++
          String.mk [Char.ofNat ((readMipsRegister machine "$a0").emod 256).toNat] }
    else mipsFail machine ("Unsupported syscall: " ++ toString v0)
  else mipsFail machine ("Unsupported instruction: " ++ inst)

/-- `stepMipsMachine(current)`. -/
def stepMipsMachine (current : MipsMachineState) : MipsMachineState :=
  if current.status ≠ MipsMachineStatus.ready then current
  else if current.pc < 0 ∨ current.pc ≥ (current.program.instructions.length : Int) then
    { current with status := MipsMachineStatus.halted }
  else if current.steps ≥ MIPS_MAX_STEPS then
    { current with status := MipsMachineStatus.error, error := "MIPS execution timed out." }
  else
    execMipsInstruction { current with steps := current.steps + 1 }
      (current.program.instructions.getD current.pc.toNat "")

/-- `/^([A-Za-z_.$][\w.$]*):\s*(.*)$/`: an optional leading label with the
rest of the line (the source re-trims the second capture afterwards). -/
def matchInlineLabel : List Char → Option (String × String)
  | c :: t =>
    if isLabelStart c then
      let w := t.takeWhile isLabelChar
      match t.dropWhile isLabelChar with
      | ':' :: rest =>
        let r := rest.dropWhile isJsSpace
        if r.all isDotChar then some (String.mk (c :: w), String.mk r) else none
      | _ => none
    else none
  | [] => none

/-- `/^\.globl\b/i.test(line)`. -/
def globlTest (l : List Char) : Bool :=
  match l with
  | c1 :: c2 :: c3 :: c4 :: c5 :: c6 :: rest =>
    c1 = '.' && charCI 'g' c2 && charCI 'l' c3 && charCI 'o' c4 &&
      charCI 'b' c5 && charCI 'l' c6 &&
      (match rest with
       | [] => true
       | c :: _ => !isWordChar c)
  | _ => false

/-- `/^\.asciiz\s+"([\s\S]*)"$/i`: capture between the first quote after the
whitespace and the final quote. -/
def asciizMatch : List Char → Option String
  | c1 :: c2 :: c3 :: c4 :: c5 :: c6 :: c7 :: rest =>
    if c1 = '.' && charCI 'a' c2 && charCI 's' c3 && charCI 'c' c4 &&
        charCI 'i' c5 && charCI 'i' c6 && charCI 'z' c7 then
      (reqWs rest).bind fun r =>
      match r with
      | '"' :: body =>
        match body.getLast? with
        | some '"' => some (String.mk body.dropLast)
        | _ => none
      | _ => none
    else none
  | _ => none

/-- `.replace(/\\n/g, '\n')`. -/
def replEscN : List Char → List Char
  | '\\' :: 'n' :: t => '\n' :: replEscN t
  | c :: t => c :: replEscN t
  | [] => []

/-- `.replace(/\\"/g, '"')`. -/
def replEscQ : List Char → List Char
  | '\\' :: '"' :: t => '"' :: replEscQ t
  | c :: t => c :: replEscQ t
  | [] => []

/-- JavaScript `String.prototype.length`: UTF-16 code units. -/
def jsStringLength (l : List Char) : Nat :=
  (l.map fun c => if c.toNat ≤ 0xFFFF then 1 else 2).sum

/-- `String.prototype.split(sep)` for a one-character separator, on
character lists (structural, so that concrete programs evaluate). -/
def splitOnChar (sep : Char) : List Char → List (List Char)
  | [] => [[]]
  | c :: t =>
    if c = sep then [] :: splitOnChar sep t
    else
      match splitOnChar sep t with
      | h :: r => (c :: h) :: r
      | [] => [[c]]

/-- `/^\.word\s+(.+)$/i`. -/
def wordMatch : List Char → Option String
  | c1 :: c2 :: c3 :: c4 :: c5 :: rest =>
    if c1 = '.' && charCI 'w' c2 && charCI 'o' c3 && charCI 'r' c4 && charCI 'd' c5 then
      match rest with
      | c :: t => if isJsSpace c then capDotRest t else none
      | [] => none
    else none
  | _ => none

/-- The mutable locals of the `parseMipsProgram` line loop. -/
structure MipsLoaderState where
  labels : List (String × Nat)
  instructions : List String
  dataByAddress : List (Int × String)
  dataAddresses : List (String × Int)
  nextDataAddress : Int
  inText : Bool
  deriving DecidableEq

/-- One iteration of the `parseMipsProgram` loop body. -/
def processMipsLine (st : MipsLoaderState) (rawLine : String) : MipsLoaderState :=
  if rawLine = ".text" then { st with inText := true }
  else if rawLine = ".data" then { st with inText := false }
  else if globlTest rawLine.data then st
  else
    let lab := matchInlineLabel rawLine.data
    let st1 :=
      match lab with
      | some (label, _) =>
        if st.inText then { st with labels := jsSet st.labels label st.instructions.length }
        else if (jsGet st.dataAddresses label).isSome then st
        else { st with dataAddresses := jsSet st.dataAddresses label st.nextDataAddress }
      | none => st
    let line :=
      match lab with
      | some (_, rest) => trimJs rest
      | none => rawLine
    if lab.isSome ∧ line = "" then st1
    else if !st1.inText then
      match asciizMatch line.data with
      | some body =>
        let normalized := String.mk (replEscQ (replEscN body.data))
        let address :=
          (jsGet st1.dataAddresses ((lab.map Prod.fst).getD "")).getD st1.nextDataAddress
        { st1 with
            dataByAddress := jsSet st1.dataByAddress address normalized
            nextDataAddress := address + jsStringLength normalized.data + 1 }
      | none =>
        match wordMatch line.data with
        | some valuesRaw =>
          let values :=
            ((splitOnChar ',' valuesRaw.data).map trimJsChars).filter fun v => !v.isEmpty
          let address :=
            (jsGet st1.dataAddresses ((lab.map Prod.fst).getD "")).getD st1.nextDataAddress
          { st1 with nextDataAddress := address + (max 1 values.length) * 4 }
        | none => st1
    else { st1 with instructions := st1.instructions ++ [line] }

/-- `parseMipsProgram(source)`.  Comment stripping `replace(/#.*$/, '')` is
modelled as truncation at the first `#`, exact for lines without a carriage
return. -/
def parseMipsProgram (source : String) : Except String MipsProgram :=
  let rawLines :=
    ((splitOnChar '\n' source.data).map fun l =>
        trimJs (String.mk (l.takeWhile fun c => !(c == '#')))).filter
      fun l => l ≠ ""
  let final := rawLines.foldl processMipsLine ⟨[], [], [], [], MIPS_DATA_BASE, false⟩
  if final.instructions.length = 0 then
    Except.error "No MIPS instructions found in .text section."
  else
    Except.ok ⟨final.instructions, final.labels, final.dataByAddress, final.dataAddresses⟩

/-- `initializeMipsMachine(source, initialRegisters, initialMemory)`; the
caller-supplied override records are modelled by their entry lists. -/
def initializeMipsMachine (source : String) (initialRegisters : List (String × Int))
    (initialMemory : List (String × Int)) : MipsMachineState :=
  match parseMipsProgram source with
  | Except.error e =>
    { source := source
      program := ⟨[], [], [], []⟩
      registers := mipsZeroRegisters
      memory := []
      output := ""
      status := MipsMachineStatus.error
      error := e
      pc := 0
      steps := 0
      touchedRegisters := []
      touchedMemory := [] }
  | Except.ok program =>
    let registers :=
      initialRegisters.foldl
        (fun r kv =>
          if mipsRegisterSetHas kv.1 && !(kv.1 == "$zero") then regSet r kv.1 (toInt32 kv.2)
          else r)
        mipsZeroRegisters
    let memory :=
      initialMemory.foldl
        (fun mem kv =>
          match parseMipsNumber kv.1 with
          | none => mem
          | some a => jsSet mem (sanitizeMipsMemoryAddress a) (toInt32 kv.2))
        []
    { source := source
      program := program
      registers := zeroRestored registers
      memory := memory
      output := ""
      status := MipsMachineStatus.ready
      error := ""
      pc := 0
      steps := 0
      touchedRegisters := []
      touchedMemory := [] }

/-- The `while (next.status === 'ready') next = stepMipsMachine(next)` loop
with an explicit iteration budget.  `runMipsLoop_status_not_ready` below
shows that `MIPS_MAX_STEPS + 1` iterations always leave the ready state, so
the budgeted loop coincides with the unbounded source loop. -/
def runMipsLoop : Nat → MipsMachineState → MipsMachineState
  | 0, m => m
  | fuel + 1, m =>
    if m.status = MipsMachineStatus.ready then runMipsLoop fuel (stepMipsMachine m) else m

/-- `runMipsMachineToEnd(machine)`. -/
def runMipsMachineToEnd (machine : MipsMachineState) : MipsMachineState :=
  runMipsLoop (MIPS_MAX_STEPS + 1) machine

@[simp] theorem mipsFail_steps (m : MipsMachineState) (s : String) :
    (mipsFail m s).steps = m.steps := rfl

@[simp] theorem mipsFail_registers (m : MipsMachineState) (s : String) :
    (mipsFail m s).registers = m.registers := rfl

@[simp] theorem mipsFail_memory (m : MipsMachineState) (s : String) :
    (mipsFail m s).memory = m.memory := rfl

@[simp] theorem mipsAdvance_steps (m : MipsMachineState) :
    (mipsAdvance m).steps = m.steps := rfl

@[simp] theorem mipsAdvance_registers (m : MipsMachineState) :
    (mipsAdvance m).registers = zeroRestored m.registers := rfl

@[simp] theorem mipsAdvance_memory (m : MipsMachineState) :
    (mipsAdvance m).memory = m.memory := rfl

@[simp] theorem mipsJumpTo_steps (m : MipsMachineState) (t : Nat) :
    (mipsJumpTo m t).steps = m.steps := rfl

@[simp] theorem mipsJumpTo_registers (m : MipsMachineState) (t : Nat) :
    (mipsJumpTo m t).registers = zeroRestored m.registers := rfl

@[simp] theorem mipsJumpTo_memory (m : MipsMachineState) (t : Nat) :
    (mipsJumpTo m t).memory = m.memory := rfl

@[simp] theorem zeroRestored_zero (r : MipsRegisterFile) : (zeroRestored r).zero = 0 := rfl

@[simp] theorem writeMipsRegister_steps (m : MipsMachineState) (n : String) (v : Int) :
    (writeMipsRegister m n v).steps = m.steps := by
  unfold writeMipsRegister
  split <;> rfl

@[simp] theorem writeMipsRegister_memory (m : MipsMachineState) (n : String) (v : Int) :
    (writeMipsRegister m n v).memory = m.memory := by
  unfold writeMipsRegister
  split <;> rfl

@[simp] theorem writeMipsRegister_pc (m : MipsMachineState) (n : String) (v : Int) :
    (writeMipsRegister m n v).pc = m.pc := by
  unfold writeMipsRegister
  split <;> rfl

@[simp] theorem writeMipsRegister_status (m : MipsMachineState) (n : String) (v : Int) :
    (writeMipsRegister m n v).status = m.status := by
  unfold writeMipsRegister
  split <;> rfl

theorem execMipsInstruction_steps (machine : MipsMachineState) (inst : String) :
    (execMipsInstruction machine inst).steps = machine.steps := by
  unfold execMipsInstruction
  repeat' split
  all_goals try rfl
  all_goals try simp
  all_goals split_ifs <;> simp

theorem execMipsInstruction_zero (machine : MipsMachineState) (inst : String)
    (h : machine.registers.zero = 0) :
    (execMipsInstruction machine inst).registers.zero = 0 := by
  unfold execMipsInstruction
  repeat' split
  all_goals try exact h
  all_goals try simp [h]
  all_goals split_ifs <;> simp [h]

theorem stepMipsMachine_steps_eq (m : MipsMachineState) :
    (stepMipsMachine m).steps =
      if m.status = MipsMachineStatus.ready ∧
          ¬(m.pc < 0 ∨ m.pc ≥ (m.program.instructions.length : Int)) ∧
          m.steps < MIPS_MAX_STEPS
      then m.steps + 1 else m.steps := by
  unfold stepMipsMachine
  by_cases h1 : m.status = MipsMachineStatus.ready
  · by_cases h2 : m.pc < 0 ∨ m.pc ≥ (m.program.instructions.length : Int)
    · simp [h1, h2]
    · by_cases h3 : m.steps ≥ MIPS_MAX_STEPS
      · simp [h1, h2, h3, Nat.not_lt.mpr h3]
      · simp [h1, h2, h3, execMipsInstruction_steps, Nat.lt_of_not_ge h3]
  · simp [h1]

theorem stepMipsMachine_ready_succ (m : MipsMachineState)
    (h : (stepMipsMachine m).status = MipsMachineStatus.ready) :
    (stepMipsMachine m).steps = m.steps + 1 ∧ m.steps < MIPS_MAX_STEPS := by
  by_cases h1 : m.status = MipsMachineStatus.ready
  · by_cases h2 : m.pc < 0 ∨ m.pc ≥ (m.program.instructions.length : Int)
    · rw [stepMipsMachine] at h
      simp [h1, h2] at h
    · by_cases h3 : m.steps ≥ MIPS_MAX_STEPS
      · rw [stepMipsMachine] at h
        simp [h1, h2, h3] at h
      · refine ⟨?_, Nat.lt_of_not_ge h3⟩
        rw [stepMipsMachine_steps_eq]
        simp [h1, h2, Nat.lt_of_not_ge h3]
  · rw [stepMipsMachine] at h
    simp [h1] at h

theorem stepMipsMachine_steps_le (m : MipsMachineState) (h : m.steps ≤ MIPS_MAX_STEPS) :
    (stepMipsMachine m).steps ≤ MIPS_MAX_STEPS := by
  rw [stepMipsMachine_steps_eq]
  split_ifs with hc
  · omega
  · exact h

theorem stepMipsMachine_zero (m : MipsMachineState) (h : m.registers.zero = 0) :
    (stepMipsMachine m).registers.zero = 0 := by
  unfold stepMipsMachine
  split_ifs <;> first | exact h | exact execMipsInstruction_zero _ _ h

theorem runMipsLoop_of_not_ready (fuel : Nat) (m : MipsMachineState)
    (h : m.status ≠ MipsMachineStatus.ready) : runMipsLoop fuel m = m := by
  cases fuel <;> simp [runMipsLoop, h]

theorem runMipsLoop_status_not_ready :
    ∀ (fuel : Nat) (m : MipsMachineState), MIPS_MAX_STEPS - m.steps < fuel →
      (runMipsLoop fuel m).status ≠ MipsMachineStatus.ready := by
  intro fuel
  induction fuel with
  | zero => intro m h; omega
  | succ f ih =>
    intro m h
    rw [runMipsLoop]
    by_cases hm : m.status = MipsMachineStatus.ready
    · rw [if_pos hm]
      by_cases hr : (stepMipsMachine m).status = MipsMachineStatus.ready
      · apply ih
        obtain ⟨hs, hlt⟩ := stepMipsMachine_ready_succ m hr
        rw [hs]
        omega
      · rw [runMipsLoop_of_not_ready _ _ hr]
        exact hr
    · rw [if_neg hm]
      exact hm

theorem runMipsLoop_steps_le :
    ∀ (fuel : Nat) (m : MipsMachineState), m.steps ≤ MIPS_MAX_STEPS →
      (runMipsLoop fuel m).steps ≤ MIPS_MAX_STEPS := by
  intro fuel
  induction fuel with
  | zero => intro m h; exact h
  | succ f ih =>
    intro m h
    rw [runMipsLoop]
    split_ifs with hm
    · exact ih _ (stepMipsMachine_steps_le m h)
    · exact h

theorem initializeMipsMachine_steps (source : String) (regs mem : List (String × Int)) :
    (initializeMipsMachine source regs mem).steps = 0 := by
  unfold initializeMipsMachine
  split <;> rfl

theorem initializeMipsMachine_zero (source : String) (regs mem : List (String × Int)) :
    (initializeMipsMachine source regs mem).registers.zero = 0 := by
  unfold initializeMipsMachine
  split <;> rfl

/-- States reachable through the public lifecycle: created by
`initializeMipsMachine`, then advanced by `stepMipsMachine`. -/
inductive MipsReachable : MipsMachineState → Prop
  | init (source : String) (regs mem : List (String × Int)) :
      MipsReachable (initializeMipsMachine source regs mem)
  | step (m : MipsMachineState) : MipsReachable m → MipsReachable (stepMipsMachine m)

/-- C1: for every reachable machine state, the `$zero` register holds 0
immediately before and immediately after a call to `stepMipsMachine`, for
any program text, including instructions whose destination operand is
`$zero` (`writeMipsRegister` discards such writes, and every executed
instruction ends by resetting `$zero` to 0). -/
theorem mips_zero_register_invariant (m : MipsMachineState) (h : MipsReachable m) :
    m.registers.zero = 0 ∧ (stepMipsMachine m).registers.zero = 0 := by
  induction h with
  | init source regs mem =>
    exact ⟨initializeMipsMachine_zero source regs mem,
      stepMipsMachine_zero _ (initializeMipsMachine_zero source regs mem)⟩
  | step m' _ ih => exact ⟨ih.2, stepMipsMachine_zero _ ih.2⟩

/-- Witness for C1 at a concrete reachable state. -/
theorem mips_zero_register_invariant_witness :
    (initializeMipsMachine "" [] []).registers.zero = 0 ∧
      (stepMipsMachine (initializeMipsMachine "" [] [])).registers.zero = 0 :=
  mips_zero_register_invariant _ (MipsReachable.init "" [] [])

/-- C2: for every state produced by `initializeMipsMachine`,
`runMipsMachineToEnd` terminates with status `halted` or `error` (never
`ready`), and the final step counter is at most `MIPS_MAX_STEPS = 10000`. -/
theorem mips_runToEnd_terminal_and_bounded (source : String)
    (regs mem : List (String × Int)) :
    ((runMipsMachineToEnd (initializeMipsMachine source regs mem)).status =
        MipsMachineStatus.halted ∨
      (runMipsMachineToEnd (initializeMipsMachine source regs mem)).status =
        MipsMachineStatus.error) ∧
      (runMipsMachineToEnd (initializeMipsMachine source regs mem)).steps ≤ MIPS_MAX_STEPS := by
  have h0 := initializeMipsMachine_steps source regs mem
  have h1 : (runMipsMachineToEnd (initializeMipsMachine source regs mem)).status ≠
      MipsMachineStatus.ready :=
    runMipsLoop_status_not_ready (MIPS_MAX_STEPS + 1)
      (initializeMipsMachine source regs mem) (by omega)
  have h2 : (runMipsMachineToEnd (initializeMipsMachine source regs mem)).steps ≤
      MIPS_MAX_STEPS :=
    runMipsLoop_steps_le (MIPS_MAX_STEPS + 1)
      (initializeMipsMachine source regs mem) (by omega)
  refine ⟨?_, h2⟩
  cases hs : (runMipsMachineToEnd (initializeMipsMachine source regs mem)).status
  · exact absurd hs h1
  · exact Or.inl rfl
  · exact Or.inr rfl

/-- A ready machine state whose program counter is outside the program. -/
def mipsOutOfRangeState : MipsMachineState :=
  { source := ""
    program := ⟨["syscall"], [], [], []⟩
    registers := mipsZeroRegisters
    memory := []
    output := ""
    status := MipsMachineStatus.ready
    error := ""
    pc := 5
    steps := 0
    touchedRegisters := []
    touchedMemory := [] }

/-- Counterexample to C4 as stated: a `stepMipsMachine` call on a ready
state with the program counter out of range transitions to `halted` but
leaves the step counter unchanged (0, not 0 + 1), so the pc-out-of-range
halt is a further exception besides the non-ready no-op. -/
theorem mips_step_counter_claim_counterexample :
    mipsOutOfRangeState.status = MipsMachineStatus.ready ∧
      (stepMipsMachine mipsOutOfRangeState).status = MipsMachineStatus.halted ∧
      (stepMipsMachine mipsOutOfRangeState).steps = 0 ∧
      mipsOutOfRangeState.steps + 1 = 1 := by
  refine ⟨rfl, ?_, ?_, rfl⟩ <;> decide

/-- C4 (amended): one `stepMipsMachine` call increments the step counter by
exactly one precisely when the input status is `ready`, the program counter
is in range and the step counter is below `MIPS_MAX_STEPS` (in particular
on every decoded instruction, including the failing ones); in all other
cases - the non-ready no-op, the pc-out-of-range halt transition and the
timeout transition - the counter is returned unchanged. -/
theorem mips_step_counter_amended (m : MipsMachineState) :
    (stepMipsMachine m).steps =
      if m.status = MipsMachineStatus.ready ∧
          ¬(m.pc < 0 ∨ m.pc ≥ (m.program.instructions.length : Int)) ∧
          m.steps < MIPS_MAX_STEPS
      then m.steps + 1 else m.steps :=
  stepMipsMachine_steps_eq m

/-- Counterexample to C3 as stated: the loader starts in the `.data`
segment, so the source `li $t0,5\nli $t1,7\nadd $t2,$t0,$t1\n` - which has
no `.text` directive - yields no instructions at all; initialisation fails
with a load error and running to end leaves `$t2` at 0 with status `error`,
not 12 with status `halted`. -/
theorem mips_arithmetic_scenario_counterexample :
    (runMipsMachineToEnd
        (initializeMipsMachine "li $t0,5\nli $t1,7\nadd $t2,$t0,$t1\n" [] [])).registers.t2 =
        0 ∧
      (runMipsMachineToEnd
            (initializeMipsMachine "li $t0,5\nli $t1,7\nadd $t2,$t0,$t1\n" [] [])).status =
        MipsMachineStatus.error ∧
      (runMipsMachineToEnd
            (initializeMipsMachine "li $t0,5\nli $t1,7\nadd $t2,$t0,$t1\n" [] [])).error =
        "No MIPS instructions found in .text section." := by
  refine ⟨?_, ?_, ?_⟩ <;> decide

/-- C3 (amended): with the instruction lines placed in the `.text` segment,
initialising with empty overrides and running to end yields `$t2 = 12` and
status `halted` (execution falls off the end of the program). -/
theorem mips_arithmetic_scenario_amended :
    (runMipsMachineToEnd
        (initializeMipsMachine ".text\nli $t0,5\nli $t1,7\nadd $t2,$t0,$t1\n" [] [])).registers.t2 =
        12 ∧
      (runMipsMachineToEnd
            (initializeMipsMachine ".text\nli $t0,5\nli $t1,7\nadd $t2,$t0,$t1\n" [] [])).status =
        MipsMachineStatus.halted := by
  refine ⟨?_, ?_⟩ <;> decide

/-- The infinite-loop source of Scenario C, with the `.text` directive the
loader requires. -/
def mipsLoopSource : String := ".text\nloop:\nbeq $zero,$zero,loop\n"

/-- The machine state after `k` executed iterations of the one-instruction
loop program. -/
def mipsLoopState (k : Nat) : MipsMachineState :=
  { source := mipsLoopSource
    program := ⟨["beq $zero,$zero,loop"], [("loop", 0)], [], []⟩
    registers := mipsZeroRegisters
    memory := []
    output := ""
    status := MipsMachineStatus.ready
    error := ""
    pc := 0
    steps := k
    touchedRegisters := []
    touchedMemory := [] }

theorem mipsLoopState_init :
    initializeMipsMachine mipsLoopSource [] [] = mipsLoopState 0 := by decide

theorem mipsLoopState_step (k : Nat) (h : k < MIPS_MAX_STEPS) :
    stepMipsMachine (mipsLoopState k) = mipsLoopState (k + 1) := by
  unfold stepMipsMachine
  rw [if_neg (by simp [mipsLoopState]),
    if_neg (by simp [mipsLoopState]),
    if_neg (by simp only [mipsLoopState]; omega)]
  rfl

theorem mipsLoopState_timeout :
    stepMipsMachine (mipsLoopState MIPS_MAX_STEPS) =
      { mipsLoopState MIPS_MAX_STEPS with
          status := MipsMachineStatus.error
          error := "MIPS execution timed out." } := by
  unfold stepMipsMachine
  rw [if_neg (by simp [mipsLoopState]),
    if_neg (by simp [mipsLoopState]),
    if_pos (by simp [mipsLoopState])]

theorem mipsLoopRun :
    ∀ (n k : Nat), k + n = MIPS_MAX_STEPS →
      runMipsLoop (n + 1) (mipsLoopState k) =
        { mipsLoopState MIPS_MAX_STEPS with
            status := MipsMachineStatus.error
            error := "MIPS execution timed out." } := by
  intro n
  induction n with
  | zero =>
    intro k hk
    have hk' : k = MIPS_MAX_STEPS := by omega
    subst hk'
    rw [runMipsLoop,
      if_pos (show (mipsLoopState MIPS_MAX_STEPS).status = MipsMachineStatus.ready from rfl),
      runMipsLoop]
    exact mipsLoopState_timeout
  | succ nn ih =>
    intro k hk
    rw [runMipsLoop,
      if_pos (show (mipsLoopState k).status = MipsMachineStatus.ready from rfl),
      mipsLoopState_step k (by omega)]
    exact ih (k + 1) (by omega)

/-- C5 (amended): running the loop program (with the `.text` directive the
loader requires) to the end yields status `error` with `steps = 10000` and
the timed-out message; and in general a `stepMipsMachine` call on a ready
state with the pc in range and `steps ≥ 10000` transitions to `error` with
the timed-out message. -/
theorem mips_timeout_amended :
    ((runMipsMachineToEnd (initializeMipsMachine mipsLoopSource [] [])).status =
        MipsMachineStatus.error ∧
      (runMipsMachineToEnd (initializeMipsMachine mipsLoopSource [] [])).steps = 10000 ∧
      (runMipsMachineToEnd (initializeMipsMachine mipsLoopSource [] [])).error =
        "MIPS execution timed out.") ∧
    ∀ m : MipsMachineState, m.status = MipsMachineStatus.ready →
      ¬(m.pc < 0 ∨ m.pc ≥ (m.program.instructions.length : Int)) →
      m.steps ≥ MIPS_MAX_STEPS →
      stepMipsMachine m =
        { m with status := MipsMachineStatus.error, error := "MIPS execution timed out." } := by
  constructor
  · have hrun : runMipsMachineToEnd (initializeMipsMachine mipsLoopSource [] []) =
        { mipsLoopState MIPS_MAX_STEPS with
            status := MipsMachineStatus.error
            error := "MIPS execution timed out." } := by
      rw [mipsLoopState_init]
      exact mipsLoopRun MIPS_MAX_STEPS 0 (by omega)
    rw [hrun]
    exact ⟨rfl, rfl, rfl⟩
  · intro m h1 h2 h3
    unfold stepMipsMachine
    rw [if_neg (by simp [h1]), if_neg h2, if_pos h3]

/-- Witness for the general timeout transition of C5 at a concrete input. -/
theorem mips_timeout_amended_witness :
    stepMipsMachine (mipsLoopState MIPS_MAX_STEPS) =
      { mipsLoopState MIPS_MAX_STEPS with
          status := MipsMachineStatus.error
          error := "MIPS execution timed out." } :=
  mips_timeout_amended.2 (mipsLoopState MIPS_MAX_STEPS) rfl (by decide) (by decide)

/-- Counterexample to C5 as stated: without a `.text` directive the loop
source fails to load (the loader starts in the `.data` segment), so running
to end returns the load-error state after 0 steps with the no-instructions
message, not a 10000-step timeout. -/
theorem mips_timeout_claim_counterexample :
    (runMipsMachineToEnd
        (initializeMipsMachine "loop:\nbeq $zero,$zero,loop\n" [] [])).steps = 0 ∧
      (runMipsMachineToEnd
            (initializeMipsMachine "loop:\nbeq $zero,$zero,loop\n" [] [])).error =
        "No MIPS instructions found in .text section." ∧
      (runMipsMachineToEnd
            (initializeMipsMachine "loop:\nbeq $zero,$zero,loop\n" [] [])).status =
        MipsMachineStatus.error := by
  refine ⟨?_, ?_, ?_⟩ <;> decide

theorem writeMipsRegister_active (m : MipsMachineState) (name : String) (v : Int)
    (h : (mipsRegisterSetHas name && !(name == "$zero")) = true) :
    writeMipsRegister m name v =
      { m with
          registers := regSet m.registers name (toInt32 v)
          touchedRegisters := pushUnique m.touchedRegisters name } := by
  unfold writeMipsRegister
  rw [if_pos h]

theorem writeMipsRegister_discard (m : MipsMachineState) (name : String) (v : Int)
    (h : (mipsRegisterSetHas name && !(name == "$zero")) = false) :
    writeMipsRegister m name v = m := by
  unfold writeMipsRegister
  rw [if_neg (by simp [h])]

theorem stepMipsMachine_exec (m : MipsMachineState)
    (h1 : m.status = MipsMachineStatus.ready)
    (h2 : ¬(m.pc < 0 ∨ m.pc ≥ (m.program.instructions.length : Int)))
    (h3 : m.steps < MIPS_MAX_STEPS) :
    stepMipsMachine m =
      execMipsInstruction { m with steps := m.steps + 1 }
        (m.program.instructions.getD m.pc.toNat "") := by
  unfold stepMipsMachine
  rw [if_neg (by simp [h1]), if_neg h2, if_neg (by omega)]

/-- C6: from any ready state about to execute `sw $t0, 0($sp)` followed
immediately by `lw $t1, 0($sp)` (both instructions actually executing:
pc in range and the step budget not exhausted), the loaded `$t1` equals
`$t0`'s prior value, for arbitrary prior 32-bit `$t0` and arbitrary `$sp`
values: the store and the load sanitise the same computed address and the
stored word round-trips. -/
theorem mips_store_load_roundtrip (m : MipsMachineState)
    (hready : m.status = MipsMachineStatus.ready)
    (hpc0 : 0 ≤ m.pc)
    (hpc1 : m.pc.toNat + 1 < m.program.instructions.length)
    (hsteps : m.steps + 1 < MIPS_MAX_STEPS)
    (hi0 : m.program.instructions.getD m.pc.toNat "" = "sw $t0, 0($sp)")
    (hi1 : m.program.instructions.getD (m.pc.toNat + 1) "" = "lw $t1, 0($sp)")
    (ht0 : -2147483648 ≤ m.registers.t0 ∧ m.registers.t0 < 2147483648) :
    (stepMipsMachine (stepMipsMachine m)).registers.t1 = m.registers.t0 := by
  have e1 := stepMipsMachine_exec m hready (by omega) (by omega)
  rw [hi0] at e1
  simp only [execMipsInstruction,
    show decodeLi "sw $t0, 0($sp)".data = none from rfl,
    show decodeLa "sw $t0, 0($sp)".data = none from rfl,
    show decodeMove "sw $t0, 0($sp)".data = none from rfl,
    show decodeAddi "sw $t0, 0($sp)".data = none from rfl,
    show decodeArith "sw $t0, 0($sp)".data = none from rfl,
    show decodeLw "sw $t0, 0($sp)".data = none from rfl,
    show decodeSw "sw $t0, 0($sp)".data = some ("$t0", "0($sp)") from rfl,
    parseMipsAddressOperand,
    show trimJs "0($sp)" = "0($sp)" from rfl,
    show matchOffsetBase "0($sp)".data = some ("0", "$sp") from rfl,
    show parseMipsNumber (trimJs "0") = some 0 from rfl,
    show mipsRegisterSetHas "$sp" = true from rfl,
    readMipsRegister, regGet, sanitizeMipsMemoryAddress, add_zero, if_true,
    mipsAdvance, zeroRestored] at e1
  set s1 := stepMipsMachine m with hs1
  have hst : s1.status = MipsMachineStatus.ready := by rw [e1]; exact hready
  have hpc : s1.pc = m.pc + 1 := by rw [e1]
  have hprog : s1.program = m.program := by rw [e1]
  have hstp : s1.steps = m.steps + 1 := by rw [e1]
  have hsp : s1.registers.sp = m.registers.sp := by rw [e1]
  have hmem : s1.memory =
      jsSet m.memory (toInt32 m.registers.sp) (toInt32 m.registers.t0) := by rw [e1]
  have htn : (m.pc + 1).toNat = m.pc.toNat + 1 := by omega
  have hinst : s1.program.instructions.getD s1.pc.toNat "" = "lw $t1, 0($sp)" := by
    rw [hpc, hprog, htn]; exact hi1
  have e2 := stepMipsMachine_exec s1 hst
    (by rw [hpc, hprog]; omega) (by rw [hstp]; omega)
  rw [hinst] at e2
  simp only [execMipsInstruction,
    show decodeLi "lw $t1, 0($sp)".data = none from rfl,
    show decodeLa "lw $t1, 0($sp)".data = none from rfl,
    show decodeMove "lw $t1, 0($sp)".data = none from rfl,
    show decodeAddi "lw $t1, 0($sp)".data = none from rfl,
    show decodeArith "lw $t1, 0($sp)".data = none from rfl,
    show decodeLw "lw $t1, 0($sp)".data = some ("$t1", "0($sp)") from rfl,
    parseMipsAddressOperand,
    show trimJs "0($sp)" = "0($sp)" from rfl,
    show matchOffsetBase "0($sp)".data = some ("0", "$sp") from rfl,
    show parseMipsNumber (trimJs "0") = some 0 from rfl,
    show mipsRegisterSetHas "$sp" = true from rfl,
    readMipsRegister, regGet, sanitizeMipsMemoryAddress, add_zero, if_true] at e2
  rw [hsp, hmem, jsGet_jsSet_self] at e2
  rw [writeMipsRegister_active _ _ _ (by decide)] at e2
  rw [e2]
  simp only [mipsAdvance, zeroRestored, regSet, Option.getD_some]
  rw [toInt32_idem, toInt32_of_range _ ht0.1 ht0.2]

/-- The two-instruction store/load program started with `$t0 = 42`,
`$sp = 100`. -/
def mipsRoundtripState : MipsMachineState :=
  initializeMipsMachine ".text\nsw $t0, 0($sp)\nlw $t1, 0($sp)\n"
    [("$t0", 42), ("$sp", 100)] []

/-- Witness for C6 at a concrete machine. -/
theorem mips_store_load_roundtrip_witness :
    (stepMipsMachine (stepMipsMachine mipsRoundtripState)).registers.t1 =
      mipsRoundtripState.registers.t0 :=
  mips_store_load_roundtrip mipsRoundtripState (by decide) (by decide) (by decide)
    (by decide) (by decide) (by decide) (by decide)
theorem charCI_toLower {p c : Char} (hp : p.toLower = p) (h : charCI p c = true) :
    c.toLower = p := by
  simp only [charCI, Bool.or_eq_true, decide_eq_true_eq] at h
  rcases h with h | h
  · rw [h]; exact hp
  · exact h

theorem charCI_false_of_ne {p c : Char} (hp : p.toLower = p) (h : c.toLower ≠ p) :
    charCI p c = false := by
  simp only [charCI, Bool.or_eq_false_iff, decide_eq_false_iff_not]
  exact ⟨fun hc => h (hc ▸ hp), h⟩

theorem decodeAddi_head {l : List Char} {x : String × String × String}
    (h : decodeAddi l = some x) :
    ∃ c1 c2 rest, l = c1 :: c2 :: rest ∧ c1.toLower = 'a' := by
  match l with
  | [] => simp [decodeAddi] at h
  | [c1] => simp [decodeAddi] at h
  | [c1, c2] => simp [decodeAddi] at h
  | [c1, c2, c3] => simp [decodeAddi] at h
  | c1 :: c2 :: c3 :: c4 :: rest =>
    refine ⟨c1, c2, c3 :: c4 :: rest, rfl, ?_⟩
    by_cases hc : (charCI 'a' c1 && charCI 'd' c2 && charCI 'd' c3 && charCI 'i' c4) = true
    · have := hc
      simp only [Bool.and_eq_true] at this
      exact charCI_toLower (by decide) this.1.1.1
    · rw [decodeAddi, if_neg (by simpa using hc)] at h
      exact absurd h (by simp)

theorem decodeLi_none_of_addi {l : List Char} {x : String × String × String}
    (h : decodeAddi l = some x) : decodeLi l = none := by
  obtain ⟨c1, c2, rest, hl, hc⟩ := decodeAddi_head h
  subst hl
  rw [decodeLi, if_neg]
  simp only [Bool.and_eq_true, not_and]
  intro h1
  rw [charCI_false_of_ne (by decide) (by rw [hc]; decide)] at h1
  exact absurd h1 (by simp)

theorem decodeLa_none_of_addi {l : List Char} {x : String × String × String}
    (h : decodeAddi l = some x) : decodeLa l = none := by
  obtain ⟨c1, c2, rest, hl, hc⟩ := decodeAddi_head h
  subst hl
  rw [decodeLa, if_neg]
  simp only [Bool.and_eq_true, not_and]
  intro h1
  rw [charCI_false_of_ne (by decide) (by rw [hc]; decide)] at h1
  exact absurd h1 (by simp)

theorem decodeMove_none_of_addi {l : List Char} {x : String × String × String}
    (h : decodeAddi l = some x) : decodeMove l = none := by
  obtain ⟨c1, c2, rest, hl, hc⟩ := decodeAddi_head h
  subst hl
  match rest with
  | [] => rfl
  | c3 :: rest2 =>
    match rest2 with
    | [] => rfl
    | c4 :: rest3 =>
      rw [decodeMove, if_neg]
      simp only [Bool.and_eq_true, not_and]
      intro h1
      rw [charCI_false_of_ne (by decide) (by rw [hc]; decide)] at h1
      exact absurd h1 (by simp)

/-- C7: for all register operand values, `add` and `sub` write the 32-bit
two's-complement truncation of the exact signed sum/difference, and `addi`
writes the truncation of the exact sum of the register operand and the
parsed immediate (no overflow trap); in particular truncating
`0x7FFFFFFF + 1` yields `-2147483648`. -/
theorem mips_arith_truncation (m : MipsMachineState)
    (hready : m.status = MipsMachineStatus.ready)
    (hpc : ¬(m.pc < 0 ∨ m.pc ≥ (m.program.instructions.length : Int)))
    (hsteps : m.steps < MIPS_MAX_STEPS) :
    ((m.program.instructions.getD m.pc.toNat "" = "add $t2,$t0,$t1" →
        (stepMipsMachine m).registers.t2 = toInt32 (m.registers.t0 + m.registers.t1)) ∧
      (m.program.instructions.getD m.pc.toNat "" = "sub $t2,$t0,$t1" →
        (stepMipsMachine m).registers.t2 = toInt32 (m.registers.t0 - m.registers.t1)) ∧
      (∀ raw n,
        decodeAddi (m.program.instructions.getD m.pc.toNat "").data = some ("$t2", "$t0", raw) →
        parseMipsNumber raw = some n →
        (stepMipsMachine m).registers.t2 = toInt32 (m.registers.t0 + n))) ∧
      toInt32 (2147483647 + 1) = -2147483648 := by
  have e0 := stepMipsMachine_exec m hready hpc hsteps
  refine ⟨⟨?_, ?_, ?_⟩, by decide⟩
  · intro hi
    rw [hi] at e0
    simp only [execMipsInstruction,
      show decodeLi "add $t2,$t0,$t1".data = none from rfl,
      show decodeLa "add $t2,$t0,$t1".data = none from rfl,
      show decodeMove "add $t2,$t0,$t1".data = none from rfl,
      show decodeAddi "add $t2,$t0,$t1".data = none from rfl,
      show decodeArith "add $t2,$t0,$t1".data = some (true, "$t2", "$t0", "$t1") from rfl,
      readMipsRegister, regGet, if_true] at e0
    rw [writeMipsRegister_active _ _ _ (by decide)] at e0
    rw [e0]
    simp [mipsAdvance, zeroRestored, regSet, toInt32_idem]
  · intro hi
    rw [hi] at e0
    simp only [execMipsInstruction,
      show decodeLi "sub $t2,$t0,$t1".data = none from rfl,
      show decodeLa "sub $t2,$t0,$t1".data = none from rfl,
      show decodeMove "sub $t2,$t0,$t1".data = none from rfl,
      show decodeAddi "sub $t2,$t0,$t1".data = none from rfl,
      show decodeArith "sub $t2,$t0,$t1".data = some (false, "$t2", "$t0", "$t1") from rfl,
      readMipsRegister, regGet] at e0
    rw [if_neg (by simp)] at e0
    rw [writeMipsRegister_active _ _ _ (by decide)] at e0
    rw [e0]
    simp [mipsAdvance, zeroRestored, regSet, toInt32_idem]
  · intro raw n hdec hn
    simp only [execMipsInstruction, decodeLi_none_of_addi hdec, decodeLa_none_of_addi hdec,
      decodeMove_none_of_addi hdec, hdec, hn, readMipsRegister, regGet] at e0
    rw [writeMipsRegister_active _ _ _ (by decide)] at e0
    rw [e0]
    simp [mipsAdvance, zeroRestored, regSet, toInt32_idem]

/-- A machine about to execute `addi $t2,$t0,1` with `$t0 = 0x7FFFFFFF`. -/
def mipsAddiOverflowState : MipsMachineState :=
  initializeMipsMachine ".text\naddi $t2,$t0,1" [("$t0", 2147483647)] []

/-- Witness for C7 at a concrete machine: `0x7FFFFFFF + 1` wraps. -/
theorem mips_arith_truncation_witness :
    (stepMipsMachine mipsAddiOverflowState).registers.t2 =
      toInt32 (mipsAddiOverflowState.registers.t0 + 1) :=
  (mips_arith_truncation mipsAddiOverflowState (by decide) (by decide)
      (by decide)).1.2.2 "1" 1 (by decide) (by decide)
theorem zeroRestored_of_zero (r : MipsRegisterFile) (h : r.zero = 0) :
    zeroRestored r = r := by
  cases r
  simp_all [zeroRestored]

/-- C9: executing an instruction whose register operand is `$`-named but not
one of the 32 defined registers does not produce the error status: a write
to such a name (`li $q9, 5`) is silently discarded, leaving the whole state
unchanged apart from the advanced pc and step counter, and a read of such a
name (`move $t0, $q9`, and `readMipsRegister` itself) yields 0, with
execution continuing in the ready status with the pc advanced. -/
theorem mips_undefined_register_names (m : MipsMachineState)
    (hready : m.status = MipsMachineStatus.ready)
    (hpc : ¬(m.pc < 0 ∨ m.pc ≥ (m.program.instructions.length : Int)))
    (hsteps : m.steps < MIPS_MAX_STEPS)
    (hzero : m.registers.zero = 0) :
    readMipsRegister m "$q9" = 0 ∧
      (m.program.instructions.getD m.pc.toNat "" = "li $q9, 5" →
        stepMipsMachine m = { m with steps := m.steps + 1, pc := m.pc + 1 }) ∧
      (m.program.instructions.getD m.pc.toNat "" = "move $t0, $q9" →
        (stepMipsMachine m).status = MipsMachineStatus.ready ∧
          (stepMipsMachine m).pc = m.pc + 1 ∧
          (stepMipsMachine m).registers.t0 = 0) := by
  have e0 := stepMipsMachine_exec m hready hpc hsteps
  refine ⟨rfl, ?_, ?_⟩
  · intro hi
    rw [hi] at e0
    simp only [execMipsInstruction,
      show decodeLi "li $q9, 5".data = some ("$q9", "5") from rfl,
      show parseMipsNumber "5" = some 5 from rfl] at e0
    rw [writeMipsRegister_discard _ _ _ (by decide)] at e0
    rw [e0]
    simp only [mipsAdvance]
    rw [zeroRestored_of_zero _ hzero]
  · intro hi
    rw [hi] at e0
    simp only [execMipsInstruction,
      show decodeLi "move $t0, $q9".data = none from rfl,
      show decodeLa "move $t0, $q9".data = none from rfl,
      show decodeMove "move $t0, $q9".data = some ("$t0", "$q9") from rfl,
      readMipsRegister,
      show regGet m.registers "$q9" = 0 from rfl] at e0
    rw [writeMipsRegister_active _ _ _ (by decide)] at e0
    rw [e0]
    refine ⟨by simp [mipsAdvance, hready], rfl, ?_⟩
    simp [mipsAdvance, zeroRestored, regSet]
    decide

/-- The two-instruction undefined-register program with `$t0 = 3`. -/
def mipsUndefRegState : MipsMachineState :=
  initializeMipsMachine ".text\nli $q9, 5\nmove $t0, $q9" [("$t0", 3)] []

/-- Witness for C9 at a concrete machine. -/
theorem mips_undefined_register_names_witness :
    stepMipsMachine mipsUndefRegState =
      { mipsUndefRegState with
          steps := mipsUndefRegState.steps + 1
          pc := mipsUndefRegState.pc + 1 } :=
  (mips_undefined_register_names mipsUndefRegState (by decide) (by decide) (by decide)
      (by decide)).2.1 (by decide)

/-- The 32-bit signed range `[-2147483648, 2147483647]`. -/
def int32Range (n : Int) : Prop :=
  -2147483648 ≤ n ∧ n ≤ 2147483647

theorem toInt32_range (n : Int) : int32Range (toInt32 n) :=
  ⟨toInt32_lower n, by have := toInt32_upper n; omega⟩

/-- Every register of the file is in the 32-bit signed range. -/
def regFileInRange (r : MipsRegisterFile) : Prop :=
  int32Range r.zero ∧ int32Range r.at' ∧ int32Range r.v0 ∧ int32Range r.v1 ∧
    int32Range r.a0 ∧ int32Range r.a1 ∧ int32Range r.a2 ∧ int32Range r.a3 ∧
    int32Range r.t0 ∧ int32Range r.t1 ∧ int32Range r.t2 ∧ int32Range r.t3 ∧
    int32Range r.t4 ∧ int32Range r.t5 ∧ int32Range r.t6 ∧ int32Range r.t7 ∧
    int32Range r.t8 ∧ int32Range r.t9 ∧ int32Range r.s0 ∧ int32Range r.s1 ∧
    int32Range r.s2 ∧ int32Range r.s3 ∧ int32Range r.s4 ∧ int32Range r.s5 ∧
    int32Range r.s6 ∧ int32Range r.s7 ∧ int32Range r.k0 ∧ int32Range r.k1 ∧
    int32Range r.gp ∧ int32Range r.sp ∧ int32Range r.fp ∧ int32Range r.ra

/-- Every stored memory word is in the 32-bit signed range. -/
def memValuesInRange (mem : List (Int × Int)) : Prop :=
  ∀ kv ∈ mem, int32Range kv.2

theorem int32Range_zero : int32Range 0 := by
  constructor <;> norm_num

theorem mipsZeroRegisters_range : regFileInRange mipsZeroRegisters := by
  refine ⟨?_, ?_, ?_, ?_, ?_, ?_, ?_, ?_, ?_, ?_, ?_, ?_, ?_, ?_, ?_, ?_,
    ?_, ?_, ?_, ?_, ?_, ?_, ?_, ?_, ?_, ?_, ?_, ?_, ?_, ?_, ?_, ?_⟩ <;>
    exact int32Range_zero

theorem regSet_range (r : MipsRegisterFile) (name : String) (v : Int)
    (h : regFileInRange r) (hv : int32Range v) : regFileInRange (regSet r name v) := by
  unfold regSet
  split <;> simp_all [regFileInRange]

theorem zeroRestored_range (r : MipsRegisterFile) (h : regFileInRange r) :
    regFileInRange (zeroRestored r) := by
  unfold regFileInRange at h ⊢
  exact ⟨int32Range_zero, h.2⟩

theorem writeMipsRegister_range (m : MipsMachineState) (name : String) (v : Int)
    (h : regFileInRange m.registers) :
    regFileInRange (writeMipsRegister m name v).registers := by
  unfold writeMipsRegister
  split
  · exact regSet_range _ _ _ h (toInt32_range v)
  · exact h

theorem jsSet_range (mem : List (Int × Int)) (a v : Int) (hv : int32Range v) :
    memValuesInRange mem → memValuesInRange (jsSet mem a v) := by
  induction mem with
  | nil =>
    intro _ kv hkv
    simp only [jsSet] at hkv
    rcases List.mem_singleton.mp hkv with rfl
    exact hv
  | cons kv0 t ih =>
    obtain ⟨k, w⟩ := kv0
    intro h kv hkv
    have hh : memValuesInRange t := fun p hp => h p (List.mem_cons_of_mem _ hp)
    by_cases hk : k = a
    · rw [jsSet, if_pos hk] at hkv
      rcases List.mem_cons.mp hkv with rfl | hkv2
      · exact hv
      · exact h _ (List.mem_cons_of_mem _ hkv2)
    · rw [jsSet, if_neg hk] at hkv
      rcases List.mem_cons.mp hkv with rfl | hkv2
      · exact h _ (List.mem_cons_self _ _)
      · exact ih hh _ hkv2

theorem execMipsInstruction_registers_range (machine : MipsMachineState) (inst : String)
    (hr : regFileInRange machine.registers) :
    regFileInRange (execMipsInstruction machine inst).registers := by
  unfold execMipsInstruction
  repeat' split
  all_goals try dsimp only
  repeat' split
  all_goals
    first
      | exact hr
      | exact zeroRestored_range _ hr
      | exact zeroRestored_range _ (writeMipsRegister_range _ _ _ hr)

theorem execMipsInstruction_memory_range (machine : MipsMachineState) (inst : String)
    (hm : memValuesInRange machine.memory) :
    memValuesInRange (execMipsInstruction machine inst).memory := by
  unfold execMipsInstruction
  repeat' split
  all_goals try dsimp only
  repeat' split
  all_goals
    simp only [mipsAdvance_memory, mipsFail_memory, mipsJumpTo_memory,
      writeMipsRegister_memory]
  all_goals
    first
      | exact hm
      | exact jsSet_range _ _ _ (toInt32_range _) hm

theorem stepMipsMachine_range (m : MipsMachineState)
    (h : regFileInRange m.registers ∧ memValuesInRange m.memory) :
    regFileInRange (stepMipsMachine m).registers ∧
      memValuesInRange (stepMipsMachine m).memory := by
  unfold stepMipsMachine
  split_ifs with h1 h2 h3
  · exact h
  · exact h
  · exact h
  · exact ⟨execMipsInstruction_registers_range _ _ h.1,
      execMipsInstruction_memory_range _ _ h.2⟩

theorem mipsRegisterFold_range (l : List (String × Int)) :
    ∀ r : MipsRegisterFile, regFileInRange r →
      regFileInRange (l.foldl
        (fun r kv =>
          if mipsRegisterSetHas kv.1 && !(kv.1 == "$zero") then regSet r kv.1 (toInt32 kv.2)
          else r) r) := by
  induction l with
  | nil => intro r hr; exact hr
  | cons kv t ih =>
    intro r hr
    simp only [List.foldl_cons]
    apply ih
    split_ifs
    · exact regSet_range _ _ _ hr (toInt32_range _)
    · exact hr

theorem mipsMemoryFold_range (l : List (String × Int)) :
    ∀ mem0 : List (Int × Int), memValuesInRange mem0 →
      memValuesInRange (l.foldl
        (fun mem kv =>
          match parseMipsNumber kv.1 with
          | none => mem
          | some a => jsSet mem (sanitizeMipsMemoryAddress a) (toInt32 kv.2)) mem0) := by
  induction l with
  | nil => intro mem0 hm; exact hm
  | cons kv t ih =>
    intro mem0 hm
    simp only [List.foldl_cons]
    apply ih
    cases parseMipsNumber kv.1 with
    | none => exact hm
    | some a => exact jsSet_range _ _ _ (toInt32_range _) hm

theorem initializeMipsMachine_range (source : String) (regs mem : List (String × Int)) :
    regFileInRange (initializeMipsMachine source regs mem).registers ∧
      memValuesInRange (initializeMipsMachine source regs mem).memory := by
  unfold initializeMipsMachine
  split
  · exact ⟨mipsZeroRegisters_range, fun kv hkv => by simp at hkv⟩
  · refine ⟨?_, ?_⟩
    · exact zeroRestored_range _ (mipsRegisterFold_range regs mipsZeroRegisters
        mipsZeroRegisters_range)
    · exact mipsMemoryFold_range mem [] (fun kv hkv => by simp at hkv)

/-- C10: in every reachable machine state (any initialisation overrides,
any number of steps), every register value and every stored memory word is
an integer in the 32-bit signed range `[-2147483648, 2147483647]`. -/
theorem mips_values_are_int32 (m : MipsMachineState) (h : MipsReachable m) :
    regFileInRange m.registers ∧ memValuesInRange m.memory := by
  induction h with
  | init source regs mem => exact initializeMipsMachine_range source regs mem
  | step m' _ ih => exact stepMipsMachine_range m' ih

/-- Witness for C10 at a concrete reachable state. -/
theorem mips_values_are_int32_witness :
    regFileInRange (initializeMipsMachine "" [] []).registers ∧
      memValuesInRange (initializeMipsMachine "" [] []).memory :=
  mips_values_are_int32 _ (MipsReachable.init "" [] [])

/-- The address stored to by the instruction-dispatch chain, when the
instruction is an `sw` whose operand resolves: the same ordered pattern
chain as `execMipsInstruction`, with `none` on every branch that does not
write memory. -/
def execStore (machine : MipsMachineState) (inst : String) : Option Int :=
  match decodeLi inst.data with
  | some _ => none
  | none =>
  match decodeLa inst.data with
  | some _ => none
  | none =>
  match decodeMove inst.data with
  | some _ => none
  | none =>
  match decodeAddi inst.data with
  | some _ => none
  | none =>
  match decodeArith inst.data with
  | some _ => none
  | none =>
  match decodeLw inst.data with
  | some _ => none
  | none =>
  match decodeSw inst.data with
  | some p => parseMipsAddressOperand machine (trimJs p.2)
  | none => none

theorem execStore_none_memory (machine : MipsMachineState) (inst : String) (a : Int)
    (h : execStore machine inst ≠ some a) :
    jsGet (execMipsInstruction machine inst).memory a = jsGet machine.memory a := by
  unfold execStore at h
  unfold execMipsInstruction
  repeat' split
  all_goals try dsimp only
  repeat' split
  all_goals simp_all [jsGet_jsSet_ne]

/-- The address stored to by one `stepMipsMachine` call (`none` when the
call stores nothing). -/
def stepStore (current : MipsMachineState) : Option Int :=
  if current.status ≠ MipsMachineStatus.ready then none
  else if current.pc < 0 ∨ current.pc ≥ (current.program.instructions.length : Int) then none
  else if current.steps ≥ MIPS_MAX_STEPS then none
  else
    execStore { current with steps := current.steps + 1 }
      (current.program.instructions.getD current.pc.toNat "")

theorem stepStore_none_memory (m : MipsMachineState) (a : Int)
    (h : stepStore m ≠ some a) :
    jsGet (stepMipsMachine m).memory a = jsGet m.memory a := by
  unfold stepStore at h
  unfold stepMipsMachine
  split_ifs at h ⊢ with h1 h2 h3
  · rfl
  · rfl
  · rfl
  · exact execStore_none_memory _ _ _ h

/-- A run of `stepMipsMachine` from `m0` during which no executed `sw`
stored to address `a`. -/
inductive MipsRunAvoiding (a : Int) (m0 : MipsMachineState) : MipsMachineState → Prop
  | refl : MipsRunAvoiding a m0 m0
  | step (m : MipsMachineState) : MipsRunAvoiding a m0 m → stepStore m ≠ some a →
      MipsRunAvoiding a m0 (stepMipsMachine m)

/-- C8 (amended): along any run from an initialised machine in which no
executed `sw` stored to address `a`, provided `a` was also not preloaded by
the caller-supplied initial memory, address `a` stays absent from the
sparse memory, and an `lw` resolving to such an address loads 0 into its
destination register. -/
theorem mips_lw_unwritten_reads_zero :
    (∀ (source : String) (regs mem : List (String × Int)) (a : Int) (m : MipsMachineState),
        MipsRunAvoiding a (initializeMipsMachine source regs mem) m →
        jsGet (initializeMipsMachine source regs mem).memory a = none →
        jsGet m.memory a = none) ∧
      ∀ m : MipsMachineState, m.status = MipsMachineStatus.ready →
        ¬(m.pc < 0 ∨ m.pc ≥ (m.program.instructions.length : Int)) →
        m.steps < MIPS_MAX_STEPS →
        m.program.instructions.getD m.pc.toNat "" = "lw $t1, 0($sp)" →
        jsGet m.memory (toInt32 m.registers.sp) = none →
        (stepMipsMachine m).registers.t1 = 0 := by
  constructor
  · intro source regs mem a m hrun hinit
    induction hrun with
    | refl => exact hinit
    | step m' _ hns ih => rw [stepStore_none_memory m' a hns]; exact ih
  · intro m hready hpc hsteps hinst hmem
    have e0 := stepMipsMachine_exec m hready hpc hsteps
    rw [hinst] at e0
    simp only [execMipsInstruction,
      show decodeLi "lw $t1, 0($sp)".data = none from rfl,
      show decodeLa "lw $t1, 0($sp)".data = none from rfl,
      show decodeMove "lw $t1, 0($sp)".data = none from rfl,
      show decodeAddi "lw $t1, 0($sp)".data = none from rfl,
      show decodeArith "lw $t1, 0($sp)".data = none from rfl,
      show decodeLw "lw $t1, 0($sp)".data = some ("$t1", "0($sp)") from rfl,
      parseMipsAddressOperand,
      show trimJs "0($sp)" = "0($sp)" from rfl,
      show matchOffsetBase "0($sp)".data = some ("0", "$sp") from rfl,
      show parseMipsNumber (trimJs "0") = some 0 from rfl,
      show mipsRegisterSetHas "$sp" = true from rfl,
      readMipsRegister, regGet, sanitizeMipsMemoryAddress, add_zero, if_true] at e0
    rw [hmem] at e0
    rw [writeMipsRegister_active _ _ _ (by decide)] at e0
    rw [e0]
    simp [mipsAdvance, zeroRestored, regSet]
    decide

/-- Counterexample to C8 as stated: with caller-supplied initial memory
`{"100": 7}`, the program `.text\nlw $t1, 100\n` executes no `sw` at all
(its only step stores nothing), yet the `lw` of address 100 loads 7, not
0: addresses preloaded through `initializeMipsMachine`'s memory overrides
read back without any prior `sw`. -/
theorem mips_lw_unwritten_claim_counterexample :
    stepStore (initializeMipsMachine ".text\nlw $t1, 100\n" [] [("100", 7)]) = none ∧
      (stepMipsMachine
          (initializeMipsMachine ".text\nlw $t1, 100\n" [] [("100", 7)])).registers.t1 = 7 := by
  refine ⟨?_, ?_⟩ <;> decide

/-- Witness for C8 (amended) at a concrete machine with empty memory. -/
theorem mips_lw_unwritten_reads_zero_witness :
    (stepMipsMachine (initializeMipsMachine ".text\nlw $t1, 0($sp)" [] [])).registers.t1 = 0 :=
  mips_lw_unwritten_reads_zero.2 _ (by decide) (by decide) (by decide) (by decide) (by decide)
